import Mathlib

/-!
# django-counter-field: shallow embedding and verification

This file embeds `src/django_counter_field/counter.py` in Lean 4 and
proves/refutes the specification claims about it.

Modelling conventions:
* Django model metadata (`Model._meta`) becomes `ModelMeta`, a model name
  plus a list of declared fields; `get_field_by_name` is a lookup that,
  as in Django, fails (raises `FieldDoesNotExist`) when the name is
  undeclared.
* Exceptions become an `Err` inductive (`ImproperlyConfigured`,
  `TypeError`, `FieldDoesNotExist`) threaded through `Except`.
  Python exception semantics: a raise aborts the construction before any
  later mutation runs, so the state-passing translation returns the
  input registry state unchanged on the error path.
* A child model instance becomes `ChildInst`: a primary key, the value
  of the foreign-key attribute (`getattr(child, foreign_field.attname)`,
  field `parentId`), and an abstract payload that the `is_in_counter`
  predicate may inspect.
* The `changes` accessor of django-model-changes becomes `ChangeEvent`:
  the post-operation instance, the pre-operation instance
  (`changes.old_instance()`, always present as an object, even for a
  fresh insert where it is the post-`__init__` snapshot), and the two
  booleans `was_persisted` / `is_persisted`.
* `Counter.receive_change` is effectful only through calls to
  `Counter.increment`; we embed it as the ordered list of those calls
  (child instance passed, signed amount), preserving the source's
  control flow and call order exactly.
* The parent table becomes a list of `ParentRow` (primary key, stored
  counter column, all other columns abstracted as `otherFields`).
  `QuerySet.filter(pk=...).update(field=expr)` becomes
  `set_counter_field`: it rewrites each matching row by evaluating the
  update expression against the *stored* value (this is the semantics
  of the `F(counter) + amount` expression) and returns the number of
  matched rows.
-/

/-- Kind of a declared field on a Django model, as far as this library
inspects it (`isinstance(field, CounterField)` / `ForeignKey`). -/
inductive FieldKind where
  | counter
  | foreignKey
  | other
  deriving DecidableEq

/-- A declared field: its `name`, its `attname` (the concrete column
attribute, e.g. `parent_id` for FK `parent`), and its kind. -/
structure FieldEntry where
  name : String
  attname : String
  kind : FieldKind
  deriving DecidableEq

/-- Django model metadata: `_meta.model_name` and the declared fields. -/
structure ModelMeta where
  model_name : String
  fields : List FieldEntry
  deriving DecidableEq

/-- `Model._meta.get_field_by_name(n)[0]`: the declared field named `n`,
or `none` (Django raises `FieldDoesNotExist`) when absent. -/
def ModelMeta.get_field_by_name (m : ModelMeta) (n : String) : Option FieldEntry :=
  m.fields.find? (fun f => f.name = n)

/-- A bound `ForeignKey` field object (`descriptor.field`): its field
entry, the model that declares it (`field.model`), the related model
(`field.rel.to`), and whether it is an actual `ForeignKey` instance. -/
structure FKField where
  entry : FieldEntry
  model : ModelMeta
  relTo : ModelMeta
  isForeignKey : Bool
  deriving DecidableEq

/-- The `foreign_field` argument of `Counter.__init__`: either a
`GenericForeignKey` (carrying its `fk_field` name and `model`), or an
ordinary field descriptor whose `.field` attribute is either a bound
field or falsy (`none`). -/
inductive RefDescriptor where
  | generic (fk_field : String) (model : ModelMeta)
  | wrapped (field : Option FKField)
  deriving DecidableEq

/-- Exceptions raised by construction:
`ImproperlyConfigured` (generic FK without `parent_model`),
`TypeError` (bad descriptor kind, or counter field of the wrong kind),
`FieldDoesNotExist` (Django's `get_field_by_name` on an undeclared
name, carrying the looked-up name). -/
inductive Err where
  | improperlyConfigured
  | typeError
  | fieldDoesNotExist (name : String)
  deriving DecidableEq

/-- The data a fully constructed `Counter` object holds (the
`is_in_counter` predicate is passed separately to the reaction
functions, since functions have no decidable equality). -/
structure Binding where
  counter_name : String
  foreign_field : FieldEntry
  parent_model : ModelMeta
  child_model : ModelMeta
  deriving DecidableEq

namespace Counter

/-- The field-resolution part of `Counter.__init__` (everything before
`self.connect()`): decides parent model, child model and the concrete
foreign field, or raises. -/
def initCore (counter_name : String) (foreign_field : RefDescriptor)
    (parent_model child_model : Option ModelMeta) : Except Err Binding :=
  match foreign_field with
  | .generic fk_field model =>
      match parent_model with
      | none => .error .improperlyConfigured
      | some pm =>
          let cm := child_model.getD model
          match cm.get_field_by_name fk_field with
          | none => .error (.fieldDoesNotExist fk_field)
          | some fe =>
              .ok { counter_name := counter_name, foreign_field := fe
                    parent_model := pm, child_model := cm }
  | .wrapped fieldOpt =>
      match fieldOpt with
      | some fk =>
          if fk.isForeignKey then
            .ok { counter_name := counter_name, foreign_field := fk.entry
                  child_model := child_model.getD fk.model
                  parent_model := parent_model.getD fk.relTo }
          else .error .typeError
      | none => .error .typeError

/-- `Counter.validate`: look up `counter_name` on the parent model
(raising `FieldDoesNotExist` if undeclared, as Django does) and raise
`TypeError` unless it is a `CounterField`. -/
def validate (b : Binding) : Except Err Unit :=
  match b.parent_model.get_field_by_name b.counter_name with
  | none => .error (.fieldDoesNotExist b.counter_name)
  | some fe => if fe.kind = .counter then .ok () else .error .typeError

/-- The key under which `Counter.connect` stores the binding in the
module-level `counters` dict:
`"<parent>.<child>.<field>" + "-" + counter_name`. -/
def counted_name (b : Binding) : String :=
  b.parent_model.model_name ++ "." ++ b.child_model.model_name ++ "."
    ++ b.foreign_field.name ++ "-" ++ b.counter_name

end Counter

/-- The module-level mutable state the library touches: the `counters`
dict and the list of receivers connected to the `post_change` signal
(in connection order; there is no disconnect path). -/
structure RegistryState where
  counters : String → Option Binding
  subscriptions : List Binding

/-- Dict assignment `counters[key] = b`. -/
def RegistryState.store (st : RegistryState) (key : String) (b : Binding) :
    RegistryState :=
  { st with counters := fun k => if k = key then some b else st.counters k }

namespace Counter

/-- `Counter.connect` as a state transformer: validate, then connect a
`post_change` receiver, then store the binding in `counters`. A raise
in `validate` propagates before either mutation. -/
def connect (b : Binding) (st : RegistryState) :
    Except Err Unit × RegistryState :=
  match validate b with
  | .error e => (.error e, st)
  | .ok _ =>
      (.ok (),
        (RegistryState.store
          { st with subscriptions := st.subscriptions ++ [b] }
          (counted_name b) b))

/-- `Counter.__init__` end to end (`connect_counter`): resolve fields,
then `self.connect()`. On any raise the registry state is returned
unchanged: the raise happens before the mutations in `connect`. -/
def construct (counter_name : String) (foreign_field : RefDescriptor)
    (parent_model child_model : Option ModelMeta) (st : RegistryState) :
    Except Err Binding × RegistryState :=
  match initCore counter_name foreign_field parent_model child_model with
  | .error e => (.error e, st)
  | .ok b =>
      match connect b st with
      | (.error e, st') => (.error e, st')
      | (.ok _, st') => (.ok b, st')

end Counter

/-- A child model instance as this library observes it: primary key,
the value of the foreign-key attribute
(`getattr(child, self.foreign_field.attname)`), and an abstract payload
that the `is_in_counter` callback may inspect. -/
structure ChildInst where
  pk : Nat
  parentId : Nat
  payload : Nat
  deriving DecidableEq

/-- `Counter.parent_id(child)`: read the foreign-key attribute. -/
def Counter.parent_id (child : ChildInst) : Nat :=
  child.parentId

/-- The `changes` accessor delivered by django-model-changes together
with the saved/deleted instance: post-state, pre-state
(`old_instance()`, always an object), and the persistence flags. -/
structure ChangeEvent where
  inst : ChildInst
  old_instance : ChildInst
  was_persisted : Bool
  is_persisted : Bool
  deriving DecidableEq

namespace Counter

/-- `Counter.has_parent_changed(new, old)`. -/
def has_parent_changed (new old : ChildInst) : Bool :=
  decide (parent_id old ≠ parent_id new)

/-- `Counter.receive_change(instance, changes)`, embedded as the ordered
list of `self.increment(child, amount)` calls it makes. Control flow
follows the source: the `if is_in_counter` block runs first, then the
`if was_in_counter` block. -/
def receive_change (pred : ChildInst → Bool) (ev : ChangeEvent) :
    List (ChildInst × Int) :=
  let old := ev.old_instance
  let changed := has_parent_changed ev.inst old
  let was_in_counter := ev.was_persisted && pred old
  let is_in_counter := ev.is_persisted && pred ev.inst
  (if is_in_counter then
    (if changed || !was_in_counter then [(ev.inst, (1 : Int))] else [])
   else []) ++
  (if was_in_counter then
    (if changed then [(old, (-1 : Int))]
     else if !is_in_counter then [(ev.inst, (-1 : Int))] else [])
   else [])

end Counter

/-- Modelled from the spec (§4.1 decision table) for the refinement
claim: the adjustments the spec's table prescribes, in table order,
with `changed_parent` treated as false whenever there is no previous
persisted state. Each table row "increment parent of X by d" becomes
the call `(X, d)`. -/
def specTableCalls (pred : ChildInst → Bool) (ev : ChangeEvent) :
    List (ChildInst × Int) :=
  let changed_parent :=
    ev.was_persisted && decide (ev.old_instance.parentId ≠ ev.inst.parentId)
  let was_in_counter := ev.was_persisted && pred ev.old_instance
  let is_in_counter := ev.is_persisted && pred ev.inst
  (if is_in_counter && (changed_parent || !was_in_counter)
    then [(ev.inst, (1 : Int))] else []) ++
  (if was_in_counter && changed_parent
    then [(ev.old_instance, (-1 : Int))] else []) ++
  (if was_in_counter && !changed_parent && !is_in_counter
    then [(ev.inst, (-1 : Int))] else [])

/-! ## Parent table and the update primitive -/

/-- A row of the parent model's table: primary key, the stored counter
column named by the binding, and all other columns abstracted. -/
structure ParentRow where
  pk : Nat
  counterVal : Int
  otherFields : Nat
  deriving DecidableEq

/-- The value expression passed to `.update(**{counter_name: value})`:
either a plain value or the relative expression `F(counter) + delta`. -/
inductive UpdateVal where
  | plain (v : Int)
  | rel (delta : Int)
  deriving DecidableEq

/-- Storage-engine evaluation of an update expression against the
currently stored column value. -/
def UpdateVal.eval : UpdateVal → Int → Int
  | .plain v, _ => v
  | .rel d, cur => cur + d

namespace Counter

/-- `Counter.set_counter_field(parent_id, value)`:
`parent_model.objects.filter(pk=parent_id).update(counter_name=value)`.
Returns the new table and the affected-row count. -/
def set_counter_field (rows : List ParentRow) (pid : Nat) (v : UpdateVal) :
    List ParentRow × Nat :=
  (rows.map (fun r =>
      if r.pk = pid then { r with counterVal := v.eval r.counterVal } else r),
   (rows.filter (fun r => r.pk = pid)).length)

/-- `Counter.increment(child, amount)`: resolve the parent id from the
child and apply the relative update `F(counter_name) + amount`. -/
def increment (rows : List ParentRow) (child : ChildInst) (amount : Int) :
    List ParentRow × Nat :=
  set_counter_field rows (parent_id child) (.rel amount)

end Counter

/-! ## System model for the counting invariant

The child table is the list of currently persisted child rows (primary
keys pairwise distinct). The parent counters are abstracted as a total
map from parent id to stored counter value — the invariant claim
assumes every touched parent row exists. Each child operation
(insert / update / delete) both transforms the child table and yields
the `ChangeEvent` that django-model-changes delivers for it, which is
then fed to `Counter.receive_change` and its increment calls applied
to the counters. -/

/-- A child table operation. `insert` carries the ghost pre-save
snapshot that `old_instance()` exposes for a fresh insert (its content
is arbitrary: the change event has `was_persisted = false`). `update`
replaces the row with the same primary key (covering re-parenting and
predicate flips). `delete` removes the row with the given key. -/
inductive ChildOp where
  | insert (c : ChildInst) (ghostOld : ChildInst)
  | update (c : ChildInst)
  | delete (pk : Nat)

/-- Look up the persisted child row with the given primary key. -/
def findChild (db : List ChildInst) (k : Nat) : Option ChildInst :=
  db.find? (fun c => c.pk = k)

/-- Apply a child operation to the child table, producing the new table
and the change event delivered for the operation; `none` when the
operation is not applicable (insert of an existing key, update/delete
of a missing key). -/
def applyOp (db : List ChildInst) : ChildOp → Option (List ChildInst × ChangeEvent)
  | .insert c g =>
      match findChild db c.pk with
      | some _ => none
      | none => some (c :: db,
          { inst := c, old_instance := g
            was_persisted := false, is_persisted := true })
  | .update c =>
      match findChild db c.pk with
      | none => none
      | some old => some (db.map (fun x => if x.pk = c.pk then c else x),
          { inst := c, old_instance := old
            was_persisted := true, is_persisted := true })
  | .delete k =>
      match findChild db k with
      | none => none
      | some old => some (db.filter (fun x => x.pk ≠ k),
          { inst := old, old_instance := old
            was_persisted := true, is_persisted := false })

/-- Apply one increment call `(child, amount)` to the counter map:
`counter = counter + amount` on the row keyed by the child's resolved
parent id. -/
def applyCall (cnt : Nat → Int) (call : ChildInst × Int) : Nat → Int :=
  fun p => if p = Counter.parent_id call.1 then cnt p + call.2 else cnt p

/-- Apply a list of increment calls in order. -/
def applyCalls (cnt : Nat → Int) (calls : List (ChildInst × Int)) : Nat → Int :=
  calls.foldl applyCall cnt

/-- One system step: apply the child operation, deliver its change
event to `receive_change` exactly once, apply the resulting increment
calls to the counters. -/
def stepSystem (pred : ChildInst → Bool) (s : List ChildInst × (Nat → Int))
    (op : ChildOp) : Option (List ChildInst × (Nat → Int)) :=
  match applyOp s.1 op with
  | none => none
  | some (db', ev) => some (db', applyCalls s.2 (Counter.receive_change pred ev))

/-- Run a finite sequence of child operations. -/
def runSystem (pred : ChildInst → Bool) (s : List ChildInst × (Nat → Int)) :
    List ChildOp → Option (List ChildInst × (Nat → Int))
  | [] => some s
  | op :: ops =>
      match stepSystem pred s op with
      | none => none
      | some s' => runSystem pred s' ops

/-- The number of currently persisted children that reference parent
`p` and satisfy the qualification predicate. -/
def qualCount (pred : ChildInst → Bool) (db : List ChildInst) (p : Nat) : Int :=
  ((db.filter (fun c => c.parentId = p ∧ pred c)).length : Int)

/-- The spec's quiescence invariant: every parent's counter equals the
number of currently persisted qualifying children referencing it; the
child table has pairwise distinct primary keys. -/
def countersCorrect (pred : ChildInst → Bool)
    (s : List ChildInst × (Nat → Int)) : Prop :=
  (s.1.map (fun c => c.pk)).Nodup ∧ ∀ p : Nat, s.2 p = qualCount pred s.1 p

/-- The net signed delta a list of increment calls applies to the
counter row of parent `p`. -/
def netDelta (p : Nat) (calls : List (ChildInst × Int)) : Int :=
  (calls.map (fun cd => if Counter.parent_id cd.1 = p then cd.2 else 0)).sum

/-! ## Concrete fixtures used by witnesses and counterexamples -/

/-- A parent model declaring the counter field `cnt` as a `CounterField`. -/
def parentMW : ModelMeta := ⟨"parent", [⟨"cnt", "cnt", .counter⟩]⟩

/-- A parent model with no field named `cnt`. -/
def parentNoCnt : ModelMeta := ⟨"parent", []⟩

/-- A parent model where `cnt` is declared but is not a `CounterField`. -/
def parentWrongKind : ModelMeta := ⟨"parent", [⟨"cnt", "cnt", .other⟩]⟩

/-- A child model with a foreign key `parent` to the parent model. -/
def childMW : ModelMeta := ⟨"child", [⟨"parent", "parent_id", .foreignKey⟩]⟩

/-- A second child model with the same `model_name` as `childMW` but a
different field list (hence a distinct `ModelMeta` value mapping to the
same registry key). -/
def childMW2 : ModelMeta :=
  ⟨"child", [⟨"parent", "parent_id", .foreignKey⟩, ⟨"extra", "extra", .other⟩]⟩

/-- A bound `ForeignKey` descriptor field relating `childMW` to `parentMW`. -/
def fkFieldW : FKField := ⟨⟨"parent", "parent_id", .foreignKey⟩, childMW, parentMW, true⟩

/-- The same foreign key but declared on `childMW2`. -/
def fkFieldW2 : FKField := ⟨⟨"parent", "parent_id", .foreignKey⟩, childMW2, parentMW, true⟩

/-- A foreign key whose related parent model lacks the counter field. -/
def fkFieldNoCnt : FKField := ⟨⟨"parent", "parent_id", .foreignKey⟩, childMW, parentNoCnt, true⟩

/-- A foreign key whose related parent model declares `cnt` with the
wrong field kind. -/
def fkFieldWrongKind : FKField :=
  ⟨⟨"parent", "parent_id", .foreignKey⟩, childMW, parentWrongKind, true⟩

/-- A descriptor whose `.field` is not a `ForeignKey` instance. -/
def fkFieldNotFK : FKField := ⟨⟨"parent", "parent_id", .other⟩, childMW, parentMW, false⟩

/-- Empty module state: empty `counters` dict, no receivers connected. -/
def emptyRegistry : RegistryState := ⟨fun _ => none, []⟩

/-- The concrete scenario of spec §8.9 (parents 1 and 2, children keyed
1 and 2, a child qualifying when its payload is 0): create A and B
qualifying under parent 1, make A non-qualifying, re-parent A to
parent 2 while non-qualifying, delete B. -/
def opsW : List ChildOp :=
  [ .insert ⟨1, 1, 0⟩ ⟨1, 1, 0⟩,
    .insert ⟨2, 1, 0⟩ ⟨2, 1, 0⟩,
    .update ⟨1, 1, 5⟩,
    .update ⟨1, 2, 5⟩,
    .delete 2 ]

/-- The binding produced by constructing against `fkFieldW`. -/
def bindingW : Binding :=
  ⟨"cnt", ⟨"parent", "parent_id", .foreignKey⟩, parentMW, childMW⟩

/-- The binding produced by constructing against `fkFieldW2`. -/
def bindingW2 : Binding :=
  ⟨"cnt", ⟨"parent", "parent_id", .foreignKey⟩, parentMW, childMW2⟩

/-! ## Theorems -/

/-- C1. For every child change event, `receive_change` applies exactly
the adjustments prescribed by the spec's decision table (with
`changed_parent` treated as false when there is no previous persisted
state): the ordered list of increment calls the code makes equals the
table's list. In particular no other adjustment is made. -/
theorem C1_receive_change_equals_spec_table
    (pred : ChildInst → Bool) (ev : ChangeEvent) :
    Counter.receive_change pred ev = specTableCalls pred ev := by
  simp only [Counter.receive_change, specTableCalls,
    Counter.has_parent_changed, Counter.parent_id]
  cases hw : ev.was_persisted <;> cases hi : ev.is_persisted <;>
    cases hpo : pred ev.old_instance <;> cases hpi : pred ev.inst <;>
      by_cases hch : ev.old_instance.parentId = ev.inst.parentId <;>
        simp [hch]

/-- C9. When the resolved parent id is unchanged and the counted status
is the same before and after the operation, `receive_change` makes no
increment call at all: the database is left untouched. -/
theorem C9_no_call_when_status_and_parent_unchanged
    (pred : ChildInst → Bool) (ev : ChangeEvent)
    (hpar : ev.old_instance.parentId = ev.inst.parentId)
    (hstatus : (ev.was_persisted && pred ev.old_instance)
             = (ev.is_persisted && pred ev.inst)) :
    Counter.receive_change pred ev = [] := by
  simp only [Counter.receive_change,
    Counter.has_parent_changed, Counter.parent_id]
  cases hw : ev.was_persisted <;> cases hi : ev.is_persisted <;>
    cases hpo : pred ev.old_instance <;> cases hpi : pred ev.inst <;>
      simp_all [hpar]

/-- Witness for C9: a concrete no-op update event (same parent,
qualifying before and after) produces no increment call. -/
theorem C9_no_call_when_status_and_parent_unchanged_witness :
    Counter.receive_change (fun _ => true)
      { inst := ⟨1, 5, 0⟩, old_instance := ⟨1, 5, 3⟩
        was_persisted := true, is_persisted := true } = [] :=
  C9_no_call_when_status_and_parent_unchanged (fun _ => true)
    { inst := ⟨1, 5, 0⟩, old_instance := ⟨1, 5, 3⟩
      was_persisted := true, is_persisted := true }
    (by decide) (by decide)

/-- C3 counterexample. A persisted child qualifying before and after,
re-parented from parent 1 to parent 2: the claim says the calls are
first `(old, -1)` then `(new, +1)`, but `receive_change` issues the
`+1` to the new parent first. -/
theorem C3_counterexample_order_is_plus_then_minus :
    Counter.receive_change (fun _ => true)
      { inst := ⟨7, 2, 0⟩, old_instance := ⟨7, 1, 0⟩
        was_persisted := true, is_persisted := true }
      ≠ [((⟨7, 1, 0⟩ : ChildInst), (-1 : Int)), ((⟨7, 2, 0⟩ : ChildInst), (1 : Int))] := by
  decide

/-- C3 amended: on a re-parent of a persisted child qualifying both
before and after, `receive_change` issues exactly two independent
increment calls — first `+1` to the new parent's counter, then `-1` to
the old parent's counter, in that order. -/
theorem C3_reparent_two_calls_plus_new_then_minus_old
    (pred : ChildInst → Bool) (ev : ChangeEvent)
    (hw : ev.was_persisted = true) (hi : ev.is_persisted = true)
    (hqo : pred ev.old_instance = true) (hqi : pred ev.inst = true)
    (hch : ev.old_instance.parentId ≠ ev.inst.parentId) :
    Counter.receive_change pred ev
      = [(ev.inst, (1 : Int)), (ev.old_instance, (-1 : Int))] := by
  simp [Counter.receive_change, Counter.has_parent_changed,
    Counter.parent_id, hw, hi, hqo, hqi, hch]

/-- In a table with pairwise distinct primary keys, filtering by the
primary key of a present row yields exactly that row. -/
theorem filter_pk_eq_singleton (rows : List ParentRow) (pid : Nat)
    (hnd : (rows.map (fun r => r.pk)).Nodup)
    (r : ParentRow) (hr : r ∈ rows) (hpk : r.pk = pid) :
    rows.filter (fun s => s.pk = pid) = [r] := by
  induction rows with
  | nil => cases hr
  | cons x xs ih =>
      rw [List.map_cons, List.nodup_cons] at hnd
      rcases List.mem_cons.mp hr with hx | hx
      · subst hx
        have hxs : xs.filter (fun s => s.pk = pid) = [] := by
          refine List.filter_eq_nil_iff.mpr ?_
          intro s hs
          simp only [decide_eq_true_eq]
          intro hspk
          exact hnd.1 (by
            rw [← hpk] at hspk
            exact hspk ▸ List.mem_map_of_mem (fun r => r.pk) hs)
        simp [List.filter_cons, hpk, hxs]
      · have hxpk : ¬ (x.pk = pid) := by
          intro hx'
          refine hnd.1 ?_
          rw [hx', ← hpk]
          exact List.mem_map_of_mem (fun r => r.pk) hx
        simp [List.filter_cons, hxpk]
        exact ih hnd.2 hx

/-- C4. Applying a delta through `increment` is a single relative
update on the parent table: at every position, the row is unchanged
unless its primary key equals the child's resolved parent id, in which
case only the counter column changes, to its *stored* value plus the
delta; and with distinct primary keys and the parent row present,
exactly one row is affected. -/
theorem C4_increment_relative_update_frame
    (rows : List ParentRow) (child : ChildInst) (amount : Int)
    (hnd : (rows.map (fun r => r.pk)).Nodup)
    (r : ParentRow) (hr : r ∈ rows)
    (hpk : r.pk = Counter.parent_id child) :
    (Counter.increment rows child amount).2 = 1 ∧
    ∀ i : Nat, (Counter.increment rows child amount).1.get? i
      = (rows.get? i).map (fun s =>
          if s.pk = Counter.parent_id child
          then { pk := s.pk, counterVal := s.counterVal + amount
                 otherFields := s.otherFields }
          else s) := by
  constructor
  · show (rows.filter (fun s => s.pk = Counter.parent_id child)).length = 1
    rw [filter_pk_eq_singleton rows (Counter.parent_id child) hnd r hr hpk]
    rfl
  · intro i
    show (rows.map _).get? i = _
    rw [show ∀ (f : ParentRow → ParentRow) (l : List ParentRow),
        (l.map f).get? i = (l.get? i).map f from fun f l => by
      simp [List.get?_eq_getElem?]]
    rcases h : rows.get? i with _ | s
    · rfl
    · by_cases hs : s.pk = Counter.parent_id child <;>
        simp [hs, UpdateVal.eval]

/-- Witness for C4 on a concrete two-row table. -/
theorem C4_increment_relative_update_frame_witness :
    (Counter.increment [⟨5, 10, 77⟩, ⟨6, 3, 88⟩] ⟨1, 5, 0⟩ 2).2 = 1 ∧
    ∀ i : Nat, (Counter.increment [⟨5, 10, 77⟩, ⟨6, 3, 88⟩] ⟨1, 5, 0⟩ 2).1.get? i
      = (([⟨5, 10, 77⟩, ⟨6, 3, 88⟩] : List ParentRow).get? i).map (fun s =>
          if s.pk = Counter.parent_id ⟨1, 5, 0⟩
          then { pk := s.pk, counterVal := s.counterVal + 2
                 otherFields := s.otherFields }
          else s) :=
  C4_increment_relative_update_frame [⟨5, 10, 77⟩, ⟨6, 3, 88⟩] ⟨1, 5, 0⟩ 2
    (by decide) ⟨5, 10, 77⟩ (by decide) (by decide)

/-- C8. When no parent row has the resolved parent id, the update
matches zero rows: both `set_counter_field` and `increment` return the
table unchanged with affected-row count 0, raising no error. -/
theorem C8_missing_parent_zero_rows_no_change
    (rows : List ParentRow) (child : ChildInst) (amount : Int) (v : UpdateVal)
    (habs : ∀ r ∈ rows, r.pk ≠ Counter.parent_id child) :
    Counter.set_counter_field rows (Counter.parent_id child) v = (rows, 0) ∧
    Counter.increment rows child amount = (rows, 0) := by
  have hfil : rows.filter (fun r => r.pk = Counter.parent_id child) = [] := by
    refine List.filter_eq_nil_iff.mpr ?_
    intro r hr
    simpa using habs r hr
  have hmap : ∀ w : UpdateVal, rows.map (fun r =>
      if r.pk = Counter.parent_id child
      then { r with counterVal := w.eval r.counterVal } else r) = rows := by
    intro w
    have : ∀ r ∈ rows, (if r.pk = Counter.parent_id child
        then { r with counterVal := w.eval r.counterVal } else r) = id r := by
      intro r hr
      simp [habs r hr]
    rw [List.map_congr_left this, List.map_id]
  exact ⟨by simp [Counter.set_counter_field, hfil, hmap v],
    by simp [Counter.increment, Counter.set_counter_field, hfil, hmap (.rel amount)]⟩

/-- Witness for C8: incrementing for a child whose parent id 9 matches
no row leaves the table unchanged and reports zero affected rows. -/
theorem C8_missing_parent_zero_rows_no_change_witness :
    Counter.set_counter_field [(⟨5, 10, 77⟩ : ParentRow)] (Counter.parent_id ⟨1, 9, 0⟩)
      (.plain 4) = ([⟨5, 10, 77⟩], 0) ∧
    Counter.increment [(⟨5, 10, 77⟩ : ParentRow)] ⟨1, 9, 0⟩ 1 = ([⟨5, 10, 77⟩], 0) :=
  C8_missing_parent_zero_rows_no_change [⟨5, 10, 77⟩] ⟨1, 9, 0⟩ 1 (.plain 4)
    (by decide)

/-- Witness for the amended C3 on a concrete re-parent event. -/
theorem C3_reparent_two_calls_plus_new_then_minus_old_witness :
    Counter.receive_change (fun _ => true)
      { inst := ⟨7, 2, 0⟩, old_instance := ⟨7, 1, 0⟩
        was_persisted := true, is_persisted := true }
      = [((⟨7, 2, 0⟩ : ChildInst), (1 : Int)), ((⟨7, 1, 0⟩ : ChildInst), (-1 : Int))] :=
  C3_reparent_two_calls_plus_new_then_minus_old (fun _ => true)
    { inst := ⟨7, 2, 0⟩, old_instance := ⟨7, 1, 0⟩
      was_persisted := true, is_persisted := true }
    rfl rfl rfl rfl (by decide)

/-- C5. Constructing a `Counter` on a `GenericForeignKey` without an
explicit `parent_model` raises `ImproperlyConfigured`, and the module
state is returned unchanged: no `post_change` receiver is connected
and no entry is added to the `counters` dict. -/
theorem C5_generic_fk_without_parent_model_raises
    (counter_name fk_field : String) (model : ModelMeta)
    (child_model : Option ModelMeta) (st : RegistryState) :
    Counter.construct counter_name (.generic fk_field model) none child_model st
      = (.error .improperlyConfigured, st) := rfl

/-- C7. Constructing a `Counter` on a descriptor that is neither a
`GenericForeignKey` nor backed by a `ForeignKey` field (its `.field`
is falsy or not a `ForeignKey` instance) raises `TypeError`, and the
module state is returned unchanged: no subscription is registered. -/
theorem C7_non_fk_descriptor_raises_type_error
    (counter_name : String) (fieldOpt : Option FKField)
    (parent_model child_model : Option ModelMeta) (st : RegistryState)
    (h : ∀ fk ∈ fieldOpt, fk.isForeignKey = false) :
    Counter.construct counter_name (.wrapped fieldOpt) parent_model child_model st
      = (.error .typeError, st) := by
  cases fieldOpt with
  | none => rfl
  | some fk =>
      have hfk : fk.isForeignKey = false := h fk rfl
      simp [Counter.construct, Counter.initCore, hfk]

/-- Witness for C7: a concrete non-`ForeignKey` descriptor. -/
theorem C7_non_fk_descriptor_raises_type_error_witness :
    Counter.construct "cnt" (.wrapped (some fkFieldNotFK)) none none emptyRegistry
      = (.error .typeError, emptyRegistry) :=
  C7_non_fk_descriptor_raises_type_error "cnt" (some fkFieldNotFK) none none
    emptyRegistry (by intro fk hfk; cases hfk; rfl)

/-- C6 counterexample. With a parent model that declares no field named
`cnt`, construction fails with `FieldDoesNotExist` (Django's lookup
error), not with a `TypeError` as the claim states. -/
theorem C6_counterexample_absent_field_is_lookup_error :
    (Counter.construct "cnt" (.wrapped (some fkFieldNoCnt)) none none
        emptyRegistry).1 ≠ .error .typeError := by
  intro h
  have h1 : (Counter.construct "cnt" (.wrapped (some fkFieldNoCnt)) none none
      emptyRegistry).1 = .error (.fieldDoesNotExist "cnt") := rfl
  rw [h1] at h
  simp only [Except.error.injEq] at h
  exact absurd h (by decide)

/-- C6 amended: whenever construction gets past field resolution
(`initCore` succeeds) but the attribute named `counter_name` on the
parent model is absent or not declared as a `CounterField`,
construction fails — with `FieldDoesNotExist` in the absent case and
`TypeError` in the wrong-kind case — and the module state is returned
unchanged, so the failure precedes any change-event subscription. -/
theorem C6_validation_failure_before_subscription
    (counter_name : String) (ff : RefDescriptor)
    (parent_model child_model : Option ModelMeta)
    (st : RegistryState) (b : Binding)
    (hb : Counter.initCore counter_name ff parent_model child_model = .ok b) :
    (b.parent_model.get_field_by_name b.counter_name = none →
      Counter.construct counter_name ff parent_model child_model st
        = (.error (.fieldDoesNotExist b.counter_name), st)) ∧
    (∀ fe, b.parent_model.get_field_by_name b.counter_name = some fe →
      fe.kind ≠ .counter →
      Counter.construct counter_name ff parent_model child_model st
        = (.error .typeError, st)) := by
  constructor
  · intro habs
    simp [Counter.construct, hb, Counter.connect, Counter.validate, habs]
  · intro fe hfe hkind
    simp [Counter.construct, hb, Counter.connect, Counter.validate, hfe, hkind]

/-- Witness for the amended C6: a parent model declaring `cnt` with the
wrong field kind makes construction fail with `TypeError`, state
unchanged. -/
theorem C6_validation_failure_before_subscription_witness :
    Counter.construct "cnt" (.wrapped (some fkFieldWrongKind)) none none
        emptyRegistry
      = (.error .typeError, emptyRegistry) :=
  (C6_validation_failure_before_subscription "cnt"
      (.wrapped (some fkFieldWrongKind)) none none emptyRegistry
      ⟨"cnt", ⟨"parent", "parent_id", .foreignKey⟩, parentWrongKind, childMW⟩
      rfl).2
    ⟨"cnt", "cnt", .other⟩ rfl (by decide)

/-- C10. Every successful construction stores its binding in the
`counters` dict under the key
`<parent model name>.<child model name>.<foreign field name>-<counter
name>`; a second successful construction whose key coincides replaces
the dict entry (only the most recent binding is retained), while both
constructions' `post_change` receivers remain connected, in order. -/
theorem C10_registry_key_and_silent_replacement
    (n1 n2 : String) (f1 f2 : RefDescriptor)
    (pm1 cm1 pm2 cm2 : Option ModelMeta)
    (st st1 st2 : RegistryState) (b1 b2 : Binding)
    (h1 : Counter.construct n1 f1 pm1 cm1 st = (.ok b1, st1))
    (h2 : Counter.construct n2 f2 pm2 cm2 st1 = (.ok b2, st2))
    (hkey : Counter.counted_name b2 = Counter.counted_name b1) :
    Counter.counted_name b1
      = b1.parent_model.model_name ++ "." ++ b1.child_model.model_name ++ "."
          ++ b1.foreign_field.name ++ "-" ++ b1.counter_name ∧
    st1.counters (Counter.counted_name b1) = some b1 ∧
    st2.counters (Counter.counted_name b1) = some b2 ∧
    st2.subscriptions = st.subscriptions ++ [b1, b2] := by
  have inv : ∀ (n : String) (f : RefDescriptor) (pm cm : Option ModelMeta)
      (s s' : RegistryState) (b : Binding),
      Counter.construct n f pm cm s = (.ok b, s') →
      s'.counters = (fun k => if k = Counter.counted_name b then some b
        else s.counters k) ∧
      s'.subscriptions = s.subscriptions ++ [b] := by
    intro n f pm cm s s' b h
    cases hic : Counter.initCore n f pm cm with
    | error e => simp [Counter.construct, hic] at h
    | ok b0 =>
        cases hv : Counter.validate b0 with
        | error e => simp [Counter.construct, hic, Counter.connect, hv] at h
        | ok u =>
            simp [Counter.construct, hic, Counter.connect, hv,
              RegistryState.store] at h
            obtain ⟨hb, hst⟩ := h
            subst hb
            rw [← hst]
            exact ⟨rfl, rfl⟩
  obtain ⟨hc1, hs1⟩ := inv n1 f1 pm1 cm1 st st1 b1 h1
  obtain ⟨hc2, hs2⟩ := inv n2 f2 pm2 cm2 st1 st2 b2 h2
  refine ⟨rfl, ?_, ?_, ?_⟩
  · rw [hc1]; simp
  · rw [hc2, hkey]; simp
  · rw [hs2, hs1, List.append_assoc]; rfl

/-- Witness for C10: constructing twice against bindings that share the
registry key (same model names, distinct child metadata) leaves the
dict holding only the second binding while both receivers stay
connected. -/
theorem C10_registry_key_and_silent_replacement_witness :
    Counter.counted_name bindingW
      = bindingW.parent_model.model_name ++ "." ++ bindingW.child_model.model_name
          ++ "." ++ bindingW.foreign_field.name ++ "-" ++ bindingW.counter_name ∧
    (Counter.construct "cnt" (.wrapped (some fkFieldW)) none none
        emptyRegistry).2.counters (Counter.counted_name bindingW) = some bindingW ∧
    (Counter.construct "cnt" (.wrapped (some fkFieldW2)) none none
        (Counter.construct "cnt" (.wrapped (some fkFieldW)) none none
          emptyRegistry).2).2.counters (Counter.counted_name bindingW)
      = some bindingW2 ∧
    (Counter.construct "cnt" (.wrapped (some fkFieldW2)) none none
        (Counter.construct "cnt" (.wrapped (some fkFieldW)) none none
          emptyRegistry).2).2.subscriptions
      = emptyRegistry.subscriptions ++ [bindingW, bindingW2] :=
  C10_registry_key_and_silent_replacement "cnt" "cnt"
    (.wrapped (some fkFieldW)) (.wrapped (some fkFieldW2)) none none none none
    emptyRegistry
    (Counter.construct "cnt" (.wrapped (some fkFieldW)) none none emptyRegistry).2
    (Counter.construct "cnt" (.wrapped (some fkFieldW2)) none none
      (Counter.construct "cnt" (.wrapped (some fkFieldW)) none none
        emptyRegistry).2).2
    bindingW bindingW2 rfl rfl rfl

/-- Evaluating a list of increment calls at a parent id adds the net
delta of the calls targeting that parent. -/
theorem applyCalls_at (cnt : Nat → Int) (calls : List (ChildInst × Int))
    (p : Nat) : applyCalls cnt calls p = cnt p + netDelta p calls := by
  induction calls generalizing cnt with
  | nil => simp [applyCalls, netDelta]
  | cons c cs ih =>
      have hstep : applyCalls cnt (c :: cs) = applyCalls (applyCall cnt c) cs := rfl
      rw [hstep, ih]
      by_cases h : p = Counter.parent_id c.1
      · simp [netDelta, applyCall, h]
        ring
      · have h' : ¬ (Counter.parent_id c.1 = p) := fun hh => h hh.symm
        simp [netDelta, applyCall, h, h']

/-- The calls made for a fresh insert event: `+1` to the new child's
parent when it qualifies, nothing otherwise (regardless of the ghost
pre-save snapshot). -/
theorem receive_change_insert (pred : ChildInst → Bool) (c g : ChildInst) :
    Counter.receive_change pred
      { inst := c, old_instance := g, was_persisted := false, is_persisted := true }
      = if pred c then [(c, (1 : Int))] else [] := by
  cases h : pred c <;>
    simp [Counter.receive_change, Counter.has_parent_changed, Counter.parent_id, h]

/-- The calls made for a delete event: `-1` to the child's parent when
it qualified, nothing otherwise. -/
theorem receive_change_delete (pred : ChildInst → Bool) (old : ChildInst) :
    Counter.receive_change pred
      { inst := old, old_instance := old, was_persisted := true, is_persisted := false }
      = if pred old then [(old, (-1 : Int))] else [] := by
  cases h : pred old <;>
    simp [Counter.receive_change, Counter.has_parent_changed, Counter.parent_id, h]

/-- Replacing the row keyed `k` leaves a list untouched when no row has
key `k`. -/
theorem map_replace_pk_id (xs : List ChildInst) (c : ChildInst)
    (h : ∀ x ∈ xs, x.pk ≠ c.pk) :
    xs.map (fun x => if x.pk = c.pk then c else x) = xs := by
  have h' : ∀ x ∈ xs, (if x.pk = c.pk then c else x) = id x := by
    intro x hx
    simp [h x hx]
  rw [List.map_congr_left h', List.map_id]

/-- Unfolding `qualCount` over a cons cell. -/
theorem qualCount_cons (pred : ChildInst → Bool) (c : ChildInst)
    (db : List ChildInst) (p : Nat) :
    qualCount pred (c :: db) p
      = qualCount pred db p
        + (if c.parentId = p ∧ pred c = true then 1 else 0) := by
  rcases h1 : pred c <;> by_cases h2 : c.parentId = p <;>
    simp [qualCount, List.filter_cons, h1, h2]

/-- A successful `findChild` yields a member with the looked-up key. -/
theorem findChild_mem (db : List ChildInst) (k : Nat) (old : ChildInst)
    (hf : findChild db k = some old) : old ∈ db ∧ old.pk = k := by
  have hmem := List.mem_of_find?_eq_some hf
  have hpk := List.find?_some hf
  simp only [decide_eq_true_eq] at hpk
  exact ⟨hmem, hpk⟩

/-- Replacing a persisted row in a table with distinct keys changes
each parent's qualifying count by removing the old row's contribution
and adding the new row's. -/
theorem qualCount_update (pred : ChildInst → Bool) (db : List ChildInst)
    (c old : ChildInst)
    (hnd : (db.map (fun x => x.pk)).Nodup)
    (hf : findChild db c.pk = some old) (p : Nat) :
    qualCount pred (db.map (fun x => if x.pk = c.pk then c else x)) p
      = qualCount pred db p
        - (if old.parentId = p ∧ pred old = true then 1 else 0)
        + (if c.parentId = p ∧ pred c = true then 1 else 0) := by
  induction db with
  | nil => simp [findChild] at hf
  | cons x xs ih =>
      rw [List.map_cons, List.nodup_cons] at hnd
      by_cases hx : x.pk = c.pk
      · have hold : old = x := by
          simp [findChild, List.find?_cons_of_pos, hx] at hf
          exact hf.symm
        subst hold
        have hxs : xs.map (fun y => if y.pk = c.pk then c else y) = xs := by
          apply map_replace_pk_id
          intro y hy hyc
          exact hnd.1 (by
            rw [← hx] at hyc
            exact hyc ▸ List.mem_map_of_mem (fun z => z.pk) hy)
        rw [List.map_cons, if_pos hx, hxs, qualCount_cons, qualCount_cons]
        ring
      · have hf' : findChild xs c.pk = some old := by
          simpa [findChild, List.find?_cons_of_neg, hx] using hf
        rw [List.map_cons, if_neg hx, qualCount_cons, qualCount_cons,
          ih hnd.2 hf']
        ring

/-- Deleting a persisted row from a table with distinct keys removes
exactly that row's contribution from each parent's qualifying count. -/
theorem qualCount_delete (pred : ChildInst → Bool) (db : List ChildInst)
    (k : Nat) (old : ChildInst)
    (hnd : (db.map (fun x => x.pk)).Nodup)
    (hf : findChild db k = some old) (p : Nat) :
    qualCount pred (db.filter (fun x => x.pk ≠ k)) p
      = qualCount pred db p
        - (if old.parentId = p ∧ pred old = true then 1 else 0) := by
  induction db with
  | nil => simp [findChild] at hf
  | cons x xs ih =>
      rw [List.map_cons, List.nodup_cons] at hnd
      by_cases hx : x.pk = k
      · have hold : old = x := by
          simp [findChild, List.find?_cons_of_pos, hx] at hf
          exact hf.symm
        subst hold
        have hxs : xs.filter (fun y => y.pk ≠ k) = xs := by
          apply List.filter_eq_self.mpr
          intro y hy
          simp only [ne_eq, decide_not, Bool.not_eq_eq_eq_not, Bool.not_true,
            decide_eq_false_iff_not]
          intro hyk
          exact hnd.1 (by
            rw [← hx] at hyk
            exact hyk ▸ List.mem_map_of_mem (fun z => z.pk) hy)
        rw [List.filter_cons_of_neg (by simp [hx]), hxs, qualCount_cons]
        ring
      · have hf' : findChild xs k = some old := by
          simpa [findChild, List.find?_cons_of_neg, hx] using hf
        rw [List.filter_cons_of_pos (by simp [hx]), qualCount_cons,
          qualCount_cons, ih hnd.2 hf']
        ring

/-- The net delta at parent `p` of the calls made for a persisted
update event: the new row's contribution minus the old row's. -/
theorem netDelta_update (pred : ChildInst → Bool) (c old : ChildInst) (p : Nat) :
    netDelta p (Counter.receive_change pred
      { inst := c, old_instance := old, was_persisted := true, is_persisted := true })
      = (if c.parentId = p ∧ pred c = true then 1 else 0)
        - (if old.parentId = p ∧ pred old = true then 1 else 0) := by
  by_cases hch : old.parentId = c.parentId <;>
    rcases hqo : pred old <;> rcases hqi : pred c <;>
      simp [Counter.receive_change, Counter.has_parent_changed,
        Counter.parent_id, netDelta, hch, hqo, hqi] <;>
        by_cases hp1 : old.parentId = p <;> by_cases hp2 : c.parentId = p <;>
          simp [hp1, hp2]

/-- One system step preserves the quiescence invariant: after any
single child operation, delivered exactly once to `receive_change`,
every parent's counter again equals its qualifying-children count. -/
theorem stepSystem_preserves (pred : ChildInst → Bool)
    (s s' : List ChildInst × (Nat → Int)) (op : ChildOp)
    (hinv : countersCorrect pred s) (h : stepSystem pred s op = some s') :
    countersCorrect pred s' := by
  obtain ⟨db, cnt⟩ := s
  obtain ⟨db', cnt'⟩ := s'
  obtain ⟨hnd, hcnt⟩ := hinv
  dsimp only at hnd hcnt
  cases op with
  | insert c g =>
      cases hf : findChild db c.pk with
      | some x => simp [stepSystem, applyOp, hf] at h
      | none =>
          simp only [stepSystem, applyOp, hf, Option.some.injEq,
            Prod.mk.injEq] at h
          obtain ⟨h1, h2⟩ := h
          subst h1
          subst h2
          constructor
          · rw [List.map_cons, List.nodup_cons]
            refine ⟨?_, hnd⟩
            intro hmem
            rw [List.mem_map] at hmem
            obtain ⟨y, hy, hypk⟩ := hmem
            have hnone := List.find?_eq_none.mp hf y hy
            simp only [decide_eq_true_eq] at hnone
            exact hnone hypk
          · intro p
            dsimp only
            rw [applyCalls_at, receive_change_insert, qualCount_cons, hcnt p]
            cases hq : pred c <;> by_cases hp : c.parentId = p <;>
              simp [netDelta, Counter.parent_id, hq, hp]
  | update c =>
      cases hf : findChild db c.pk with
      | none => simp [stepSystem, applyOp, hf] at h
      | some old =>
          simp only [stepSystem, applyOp, hf, Option.some.injEq,
            Prod.mk.injEq] at h
          obtain ⟨h1, h2⟩ := h
          subst h1
          subst h2
          constructor
          · have hpk : ((db.map (fun x => if x.pk = c.pk then c else x)).map
                (fun x => x.pk)) = db.map (fun x => x.pk) := by
              rw [List.map_map]
              apply List.map_congr_left
              intro x hx
              by_cases hxc : x.pk = c.pk <;> simp [Function.comp, hxc]
            rw [hpk]
            exact hnd
          · intro p
            dsimp only
            rw [applyCalls_at, qualCount_update pred db c old hnd hf p, hcnt p,
              netDelta_update]
            ring
  | delete k =>
      cases hf : findChild db k with
      | none => simp [stepSystem, applyOp, hf] at h
      | some old =>
          simp only [stepSystem, applyOp, hf, Option.some.injEq,
            Prod.mk.injEq] at h
          obtain ⟨h1, h2⟩ := h
          subst h1
          subst h2
          constructor
          · have hsub : ((db.filter (fun x => x.pk ≠ k)).map
                (fun x => x.pk)).Sublist (db.map (fun x => x.pk)) :=
              (List.filter_sublist db).map (fun x => x.pk)
            exact List.Nodup.sublist hsub hnd
          · intro p
            dsimp only
            rw [applyCalls_at, receive_change_delete,
              qualCount_delete pred db k old hnd hf p, hcnt p]
            cases hq : pred old <;> by_cases hp : old.parentId = p <;>
              simp [netDelta, Counter.parent_id, hq, hp, sub_eq_add_neg]

/-- C2. Starting from a state where every parent's counter equals the
number of currently persisted qualifying children referencing it (and
child primary keys are distinct), after any finite sequence of child
insert, update (including re-parent) and delete operations — each
delivered exactly once to `receive_change`, with every touched parent
counter held in the total counter map — every parent's counter again
equals the number of currently persisted qualifying children
referencing it, regardless of the order of the events. -/
theorem C2_counting_invariant_preserved (pred : ChildInst → Bool)
    (s s' : List ChildInst × (Nat → Int)) (ops : List ChildOp)
    (hinv : countersCorrect pred s)
    (hrun : runSystem pred s ops = some s') :
    countersCorrect pred s' := by
  induction ops generalizing s with
  | nil =>
      simp only [runSystem, Option.some.injEq] at hrun
      subst hrun
      exact hinv
  | cons op ops ih =>
      cases hstep : stepSystem pred s op with
      | none => simp [runSystem, hstep] at hrun
      | some s1 =>
          simp only [runSystem, hstep] at hrun
          exact ih s1 (stepSystem_preserves pred s s1 op hinv hstep) hrun

/-- Witness for C2: the spec §8.9 scenario run from an empty child
table and all-zero counters ends with every counter equal to its
qualifying count (parent 1 back to 0, parent 2 unchanged). -/
theorem C2_counting_invariant_preserved_witness :
    countersCorrect (fun c => c.payload == 0)
      ((runSystem (fun c => c.payload == 0) ([], fun _ => 0) opsW).getD
        ([], fun _ => 0)) :=
  C2_counting_invariant_preserved (fun c => c.payload == 0)
    ([], fun _ => 0)
    ((runSystem (fun c => c.payload == 0) ([], fun _ => 0) opsW).getD
      ([], fun _ => 0))
    opsW
    ⟨List.nodup_nil, fun p => by simp [qualCount]⟩
    rfl
